import Mathlib

/-
  Shallow embedding of oneflow/xla/of2xla/xla_launch_kernel.cpp:
  the compile-cache-and-launch pipeline of the XlaLaunchKernel.
  Pointers are modelled as Option Nat (none = nullptr), fatal CHECK
  failures as an explicit error value, external collaborators
  (signature hashing, the graph compiler, the transfer manager, the
  executable run) as function parameters, and observable side effects
  (cache lookup, compilation, stream blocking, executable run) as an
  event trace.
-/

namespace OfXla

/-- An xla shape; the embedding keeps only what the kernel inspects:
whether the shape is a tuple, plus opaque dimension data. -/
structure XShape where
  isTuple : Bool
  dims : List Nat
deriving DecidableEq, Repr

/-- A oneflow Blob as seen by the launch kernel: its data pointer
(none models nullptr) and the byte size of its data content field. -/
structure Blob where
  dptr : Option Nat
  byteSize : Nat
deriving DecidableEq, Repr

/-- The all-null blob, used as a default for list lookups. -/
def nullBlob : Blob := ⟨none, 0⟩

/-- xla XlaBuilder InputOutputAlias: output shape index, parameter
number, parameter shape index, exactly as constructed at
xla_launch_kernel.cpp line 144. -/
structure AliasEntry where
  output_index : List Nat
  param_number : Nat
  param_index : List Nat
deriving DecidableEq, Repr

/-- mola CompilationResult: the executable handle (opaque), the input
shape list and the output shape recorded by the compiler. -/
structure CompilationResult where
  executable : Nat
  xla_input_shapes : List XShape
  xla_output_shape : XShape
deriving DecidableEq, Repr

/-- Signatures are opaque comparable keys; ComputeSignature itself is
an external collaborator passed in as a function. -/
abbrev Signature := Nat

/-- The compilation cache content: a map from signature to result. -/
abbrev Cache := List (Signature × CompilationResult)

/-- Modelled from the spec: XlaCompilationCache GetRecord is a pure
lookup with no side effects (spec section 4.2); the class body is not
among the shown sources. -/
def getRecord (cache : Cache) (s : Signature) : Option CompilationResult :=
  (cache.find? (fun e => e.1 == s)).map (fun e => e.2)

/-- Modelled from the spec: XlaCompilationCache Record inserts or
overwrites the entry for the signature (spec section 4.2); the class
body is not among the shown sources. -/
def record (cache : Cache) (s : Signature) (r : CompilationResult) : Cache :=
  (s, r) :: cache

/-- Modelled from the spec: mola LaunchAttrHelper holds the declared
mutable arguments and their output-name mapping (spec section 4.3);
the class body is not among the shown sources. -/
structure LaunchAttrHelper where
  mutableArgs : List (String × String)
deriving DecidableEq, Repr

/-- Modelled from the spec: whether the named argument is declared
mutable. -/
def LaunchAttrHelper.IsMutableArg (a : LaunchAttrHelper) (name : String) : Bool :=
  (a.mutableArgs.find? (fun p => p.1 == name)).isSome

/-- Modelled from the spec: the output name a mutable argument is
rotated to. -/
def LaunchAttrHelper.OutputArg (a : LaunchAttrHelper) (name : String) : String :=
  ((a.mutableArgs.find? (fun p => p.1 == name)).map (fun p => p.2)).getD ""

/-- Observable events of one invocation, in occurrence order. -/
inductive Event where
  | aliasResolve
  | cacheLookup (hit : Bool)
  | compile
  | cacheRecord
  | populateResults
  | run
  | blockHost
deriving DecidableEq, Repr

/-- The fatal CHECK failures of the kernel, one per CHECK site. -/
inductive Fatal where
  | missingLaunchConf
  | entryNameSizeMismatch
  | executableBuildFailed
  | allocMismatch
  | shapeMismatch
  | missingOutput
  | unsupportedInputShape
  | resultNotTuple
  | bufferMismatch (slot : Nat)
deriving DecidableEq, Repr

/-- The loop body of AliasMutableInputsAndOutputs (lines 141 to 149):
entries are processed in order with their index; a mutable entry first
pushes an alias whose output index is the current return list length,
then pushes its blob and its output name. -/
def aliasLoop (attr : LaunchAttrHelper) :
    List (Nat × Blob × String) →
    List Blob × List String × List AliasEntry →
    List Blob × List String × List AliasEntry
  | [], acc => acc
  | (i, blob, name) :: rest, (rb, rn, al) =>
    if attr.IsMutableArg name then
      aliasLoop attr rest
        (rb ++ [blob], rn ++ [attr.OutputArg name],
         al ++ [⟨[rb.length], i, []⟩])
    else
      aliasLoop attr rest (rb, rn, al)

/-- XlaLaunchKernel AliasMutableInputsAndOutputs (lines 133 to 150).
The CHECK_EQ on the two entry list sizes is modelled as returning
none. -/
def AliasMutableInputsAndOutputs (attr : LaunchAttrHelper)
    (entry_blobs : List Blob) (entry_blob_names : List String)
    (return_blobs : List Blob) (return_blob_names : List String)
    (aliases : List AliasEntry) :
    Option (List Blob × List String × List AliasEntry) :=
  if entry_blobs.length = entry_blob_names.length then
    some (aliasLoop attr ((entry_blobs.zip entry_blob_names).enum)
      (return_blobs, return_blob_names, aliases))
  else
    none

/-- Output of BuildLocalExecutable: the cache afterwards, the
compile_result out parameter, the event trace and a fatal error if a
CHECK fired. -/
structure BLEOut where
  cache : Cache
  compile_result : Option CompilationResult
  events : List Event
  error : Option Fatal
deriving Repr

/-- XlaLaunchKernel BuildLocalExecutable (lines 14 to 51):
compute the signature, look the cache up (force_compile is the
constant false), and on a miss check the launch conf, compile, record
the result and re-fetch it from the cache. -/
def BuildLocalExecutable
    (computeSignature : String → Nat → List Blob → Signature)
    (compile : List Blob → List Blob → List String → List String →
      List AliasEntry → CompilationResult)
    (hasXlaLaunchConf : Bool)
    (builderName : String) (device_ordinal : Nat)
    (cache : Cache)
    (entry_blobs return_blobs : List Blob)
    (entry_blob_names return_blob_names : List String)
    (aliases : List AliasEntry) : BLEOut :=
  let signature := computeSignature builderName device_ordinal entry_blobs
  let force_compile := false
  let compile_result :=
    if force_compile then none else getRecord cache signature
  match compile_result with
  | some r => ⟨cache, some r, [.cacheLookup true], none⟩
  | none =>
    if hasXlaLaunchConf then
      let result := compile entry_blobs return_blobs
        entry_blob_names return_blob_names aliases
      let cache' := record cache signature result
      ⟨cache', getRecord cache' signature,
       [.cacheLookup false, .compile, .cacheRecord], none⟩
    else
      ⟨cache, none, [.cacheLookup false], some .missingLaunchConf⟩

/-- An xla ShapedBuffer argument as assembled in LaunchExecutable
(lines 88 to 94): host shape, device shape (the code passes the host
shape for both), the buffer pointer and the buffer size. -/
structure ShapedBuf where
  on_host_shape : XShape
  on_device_shape : XShape
  ptr : Option Nat
  size : Nat
deriving DecidableEq, Repr

/-- The run result (xla ScopedShapedBuffer): whether the on-host
shape is a tuple, and one buffer pointer per tuple slot (none models
a null buffer). -/
structure RunResult where
  onHostShapeIsTuple : Bool
  buffers : List (Option Nat)
deriving DecidableEq, Repr

/-- Device memory, abstracted: the run of the executable transforms
it; the launch kernel itself never touches it. -/
abbrev Heap := List (Nat × Nat)

/-- The input translation loop of LaunchExecutable (lines 72 to 95):
per input, a tuple device shape is a fatal error; a null data pointer
with positive byte size is replaced by the first return blob pointer;
the shaped buffer carries the host shape twice. -/
def makeArguments (hostToDevice : XShape → XShape)
    (return_blobs : List Blob) :
    List (Blob × XShape) → Except Fatal (List ShapedBuf)
  | [] => .ok []
  | (blob, shape) :: rest =>
    let on_device_shape := hostToDevice shape
    if on_device_shape.isTuple then
      .error .unsupportedInputShape
    else
      let data_size := blob.byteSize
      let data_ptr :=
        if data_size > 0 ∧ blob.dptr = none then
          (return_blobs.headD nullBlob).dptr
        else blob.dptr
      match makeArguments hostToDevice return_blobs rest with
      | .error e => .error e
      | .ok bufs => .ok (⟨shape, shape, data_ptr, data_size⟩ :: bufs)

/-- The result translation loop of LaunchExecutable (lines 117 to
129): slot by slot, a null result buffer is skipped; a non-null one
must be pointer-identical to the output blob (the memcpy is commented
out in the source, so no data is ever copied). -/
def checkLoop (buffers : List (Option Nat)) :
    Nat → List Blob → Option Fatal
  | _, [] => none
  | i, b :: rest =>
    match buffers.getD i none with
    | none => checkLoop buffers (i + 1) rest
    | some p =>
      if some p = b.dptr then checkLoop buffers (i + 1) rest
      else some (.bufferMismatch i)

/-- The result postcondition of LaunchExecutable (lines 113 to 129):
the result shape must be a tuple, then every slot is checked by
checkLoop. -/
def checkResults (r : RunResult) (return_blobs : List Blob) : Option Fatal :=
  if r.onHostShapeIsTuple then checkLoop r.buffers 0 return_blobs
  else some .resultNotTuple

/-- Output of LaunchExecutable: event trace, device memory afterwards
and a fatal error if a CHECK fired. -/
structure LEOut where
  events : List Event
  heap : Heap
  error : Option Fatal
deriving Repr

/-- XlaLaunchKernel LaunchExecutable (lines 53 to 130): size checks,
input translation, asynchronous run (with an optional host block on
the stream), then the result postcondition checks. -/
def LaunchExecutable (hostToDevice : XShape → XShape)
    (runAsync : List ShapedBuf → Heap → RunResult × Heap)
    (entry_blobs : List Blob) (input_shapes : List XShape)
    (return_blobs : List Blob) (output_shape : XShape)
    (block_host_until_done : Bool) (heap : Heap) : LEOut :=
  if entry_blobs.length ≠ input_shapes.length then
    ⟨[], heap, some .shapeMismatch⟩
  else if ¬ (0 < return_blobs.length) then
    ⟨[], heap, some .missingOutput⟩
  else
    match makeArguments hostToDevice return_blobs
        (entry_blobs.zip input_shapes) with
    | .error e => ⟨[], heap, some e⟩
    | .ok args =>
      let (run_result, heap') := runAsync args heap
      let tr := Event.run ::
        (if block_host_until_done then [Event.blockHost] else [])
      ⟨tr, heap', checkResults run_result return_blobs⟩

/-- The device type the kernel template is instantiated at. -/
inductive DeviceType where
  | kCPU
  | kGPU
deriving DecidableEq, Repr

/-- Output of ForwardDataContent: the cache afterwards, the full event
trace, device memory afterwards and a fatal error if a CHECK fired. -/
structure FDOut where
  cache : Cache
  events : List Event
  heap : Heap
  error : Option Fatal
deriving Repr

/-- XlaLaunchKernel ForwardDataContent (lines 152 to 204): build the
entry and return lists from the blob name maps, resolve mutable-input
aliasing, build the local executable through the cache, check the
allocation index count, populate the result buffers, pick the blocking
policy by device type (synchronous unless GPU) and launch. -/
def ForwardDataContent
    (device_type : DeviceType)
    (hasXlaLaunchConf : Bool)
    (attr : LaunchAttrHelper)
    (bnInOp2Blob : String → Blob) (bnToLbiName : String → String)
    (input_bns output_bns : List String)
    (computeSignature : String → Nat → List Blob → Signature)
    (compile : List Blob → List Blob → List String → List String →
      List AliasEntry → CompilationResult)
    (resultAllocationIndices : Nat → List Int)
    (hostToDevice : XShape → XShape)
    (runAsync : List ShapedBuf → Heap → RunResult × Heap)
    (opName : String) (device_ordinal : Nat)
    (cache : Cache) (heap : Heap) : FDOut :=
  let entry_blobs := input_bns.map bnInOp2Blob
  let entry_blob_names := input_bns.map bnToLbiName
  let return_blobs := output_bns.map bnInOp2Blob
  let return_blob_names := output_bns
  if ¬ hasXlaLaunchConf then
    ⟨cache, [], heap, some .missingLaunchConf⟩
  else
    match AliasMutableInputsAndOutputs attr entry_blobs entry_blob_names
        return_blobs return_blob_names [] with
    | none => ⟨cache, [.aliasResolve], heap, some .entryNameSizeMismatch⟩
    | some (return_blobs, return_blob_names, aliases) =>
      let ble := BuildLocalExecutable computeSignature compile
        hasXlaLaunchConf opName device_ordinal cache entry_blobs
        return_blobs entry_blob_names return_blob_names aliases
      match ble.error with
      | some e => ⟨ble.cache, .aliasResolve :: ble.events, heap, some e⟩
      | none =>
        match ble.compile_result with
        | none =>
          ⟨ble.cache, .aliasResolve :: ble.events, heap,
           some .executableBuildFailed⟩
        | some cres =>
          let allocation_indices := resultAllocationIndices cres.executable
          if return_blobs.length ≠ allocation_indices.length then
            ⟨ble.cache, .aliasResolve :: ble.events, heap,
             some .allocMismatch⟩
          else
            let block_host_until_done :=
              match device_type with
              | .kGPU => false
              | _ => true
            let le := LaunchExecutable hostToDevice runAsync entry_blobs
              cres.xla_input_shapes return_blobs cres.xla_output_shape
              block_host_until_done heap
            ⟨ble.cache,
             .aliasResolve :: ble.events ++ [.populateResults] ++ le.events,
             le.heap, le.error⟩

/-- Default shape used for list lookups. -/
def nullShape : XShape := ⟨false, []⟩

/-- Default shaped buffer used for list lookups. -/
def nullBuf : ShapedBuf := ⟨nullShape, nullShape, none, 0⟩

/-- Default blob-and-shape pair used for list lookups. -/
def nullPair : Blob × XShape := (nullBlob, nullShape)

/-- Follows the wording of the claims on alias resolution (spec
section 4.3): processing indexed entries in order, each mutable entry
contributes its blob, its declared output name, and one alias entry
whose input slot is the entry index and whose output slot continues
the running count of return tensors, starting at the given base. -/
def specAliasExtras (attr : LaunchAttrHelper) :
    List (Nat × Blob × String) → Nat →
    List Blob × List String × List AliasEntry
  | [], _ => ([], [], [])
  | (i, blob, name) :: rest, base =>
    if attr.IsMutableArg name then
      let x := specAliasExtras attr rest (base + 1)
      (blob :: x.1, attr.OutputArg name :: x.2.1,
       (⟨[base], i, []⟩ : AliasEntry) :: x.2.2)
    else specAliasExtras attr rest base

theorem getRecord_record_self (cache : Cache) (s : Signature)
    (r : CompilationResult) : getRecord (record cache s r) s = some r := by
  simp [getRecord, record, List.find?]

theorem aliasLoop_eq (attr : LaunchAttrHelper) :
    ∀ (pairs : List (Nat × Blob × String)) (rb : List Blob)
      (rn : List String) (al : List AliasEntry),
      aliasLoop attr pairs (rb, rn, al) =
        (rb ++ (specAliasExtras attr pairs rb.length).1,
         rn ++ (specAliasExtras attr pairs rb.length).2.1,
         al ++ (specAliasExtras attr pairs rb.length).2.2)
  | [], rb, rn, al => by simp [aliasLoop, specAliasExtras]
  | (i, blob, name) :: rest, rb, rn, al => by
    by_cases h : attr.IsMutableArg name
    · simp only [aliasLoop, specAliasExtras, h, if_true,
        aliasLoop_eq attr rest (rb ++ [blob]) (rn ++ [attr.OutputArg name])
          (al ++ [(⟨[rb.length], i, []⟩ : AliasEntry)])]
      simp [List.append_assoc, List.length_append]
    · simp [aliasLoop, specAliasExtras, h, aliasLoop_eq attr rest rb rn al]

theorem mem_BLE_events (cs : String → Nat → List Blob → Signature)
    (comp : List Blob → List Blob → List String → List String →
      List AliasEntry → CompilationResult)
    (conf : Bool) (name : String) (ord : Nat) (cache : Cache)
    (eb rb : List Blob) (en rn : List String) (al : List AliasEntry)
    (e : Event)
    (h : e ∈ (BuildLocalExecutable cs comp conf name ord cache
      eb rb en rn al).events) :
    e = .cacheLookup true ∨ e = .cacheLookup false ∨
    e = .compile ∨ e = .cacheRecord := by
  unfold BuildLocalExecutable at h
  rcases hg : getRecord cache (cs name ord eb) with _ | r <;>
    simp only [hg, if_true, if_false] at h
  · rcases hc : conf <;> simp [hc] at h <;> tauto
  · simp at h; tauto

theorem BLE_characterization
    (cs : String → Nat → List Blob → Signature)
    (comp : List Blob → List Blob → List String → List String →
      List AliasEntry → CompilationResult)
    (name : String) (ord : Nat) (cache : Cache)
    (eb rb : List Blob) (en rn : List String) (al : List AliasEntry) :
    BuildLocalExecutable cs comp true name ord cache eb rb en rn al =
      match getRecord cache (cs name ord eb) with
      | some r => ⟨cache, some r, [.cacheLookup true], none⟩
      | none =>
        ⟨record cache (cs name ord eb) (comp eb rb en rn al),
         some (comp eb rb en rn al),
         [.cacheLookup false, .compile, .cacheRecord], none⟩ := by
  unfold BuildLocalExecutable
  rcases hg : getRecord cache (cs name ord eb) with _ | r <;>
    simp [hg, getRecord_record_self]

theorem makeArguments_error (hd : XShape → XShape) (rb : List Blob) :
    ∀ (pairs : List (Blob × XShape)) (e : Fatal),
      makeArguments hd rb pairs = .error e → e = .unsupportedInputShape
  | [], e, h => by simp [makeArguments] at h
  | (blob, shape) :: rest, e, h => by
    unfold makeArguments at h
    by_cases ht : (hd shape).isTuple
    · simp [ht] at h; exact h.symm
    · simp only [ht, if_false, Bool.false_eq_true] at h
      rcases hr : makeArguments hd rb rest with e' | bufs <;>
        simp [hr] at h
      exact h ▸ makeArguments_error hd rb rest e' hr

theorem checkLoop_cases (buffers : List (Option Nat)) :
    ∀ (bs : List Blob) (i : Nat),
      checkLoop buffers i bs = none ∨
      ∃ j, checkLoop buffers i bs = some (.bufferMismatch j)
  | [], i => by simp [checkLoop]
  | b :: rest, i => by
    unfold checkLoop
    rcases buffers.getD i none with _ | p
    · exact checkLoop_cases buffers rest (i + 1)
    · by_cases hp : some p = b.dptr
      · simp only [hp, if_true]
        exact checkLoop_cases buffers rest (i + 1)
      · exact Or.inr ⟨i, by simp [hp]⟩

theorem checkResults_cases (r : RunResult) (rb : List Blob) :
    checkResults r rb = none ∨
    checkResults r rb = some .resultNotTuple ∨
    ∃ j, checkResults r rb = some (.bufferMismatch j) := by
  by_cases ht : r.onHostShapeIsTuple = true
  · simp only [checkResults, ht, if_true]
    rcases checkLoop_cases r.buffers rb 0 with h | h
    · exact Or.inl h
    · exact Or.inr (Or.inr h)
  · simp [checkResults, ht]

theorem checkLoop_mismatch (buffers : List (Option Nat)) :
    ∀ (bs : List Blob) (i k : Nat) (p : Nat), k < bs.length →
      buffers.getD (i + k) none = some p →
      some p ≠ (bs.getD k nullBlob).dptr →
      ∃ j, checkLoop buffers i bs = some (.bufferMismatch j)
  | [], i, k, p, hk, _, _ => by simp at hk
  | b :: rest, i, k, p, hk, hbuf, hne => by
    unfold checkLoop
    rcases k with _ | k
    · simp only [Nat.add_zero] at hbuf
      rw [hbuf]
      simp only [List.getD_cons_zero] at hne
      exact ⟨i, by simp [hne]⟩
    · rcases hb : buffers.getD i none with _ | q
      · refine checkLoop_mismatch buffers rest (i + 1) k p
          (by simpa using hk) ?_ (by simpa using hne)
        rw [← hbuf]; ring_nf
      · by_cases hq : some q = b.dptr
        · simp only [hq, if_true]
          refine checkLoop_mismatch buffers rest (i + 1) k p
            (by simpa using hk) ?_ (by simpa using hne)
          rw [← hbuf]; ring_nf
        · exact ⟨i, by simp [hq]⟩

theorem checkLoop_all_none (buffers : List (Option Nat)) :
    ∀ (bs : List Blob) (i : Nat),
      (∀ k, k < bs.length → buffers.getD (i + k) none = none) →
      checkLoop buffers i bs = none
  | [], i, _ => by simp [checkLoop]
  | b :: rest, i, h => by
    unfold checkLoop
    have h0 : buffers.getD i none = none := by
      have := h 0 (by simp); simpa using this
    rw [h0]
    refine checkLoop_all_none buffers rest (i + 1) fun k hk => ?_
    have e : i + 1 + k = i + (k + 1) := by omega
    rw [e]
    exact h (k + 1) (by simpa using hk)

theorem LE_characterization (hd : XShape → XShape)
    (runA : List ShapedBuf → Heap → RunResult × Heap)
    (eb : List Blob) (shapes : List XShape) (rb : List Blob)
    (os : XShape) (block : Bool) (h0 : Heap) :
    LaunchExecutable hd runA eb shapes rb os block h0 =
      if eb.length ≠ shapes.length then ⟨[], h0, some .shapeMismatch⟩
      else if ¬ (0 < rb.length) then ⟨[], h0, some .missingOutput⟩
      else
        match makeArguments hd rb (eb.zip shapes) with
        | .error e => ⟨[], h0, some e⟩
        | .ok args =>
          ⟨Event.run :: (if block then [Event.blockHost] else []),
           (runA args h0).2, checkResults (runA args h0).1 rb⟩ := by
  rfl

theorem mem_LE_events (hd : XShape → XShape)
    (runA : List ShapedBuf → Heap → RunResult × Heap)
    (eb : List Blob) (shapes : List XShape) (rb : List Blob)
    (os : XShape) (block : Bool) (h0 : Heap) (e : Event)
    (h : e ∈ (LaunchExecutable hd runA eb shapes rb os block h0).events) :
    e = .run ∨ e = .blockHost := by
  rw [LE_characterization] at h
  by_cases h1 : eb.length ≠ shapes.length
  · simp [h1] at h
  · rw [if_neg h1] at h
    by_cases h2 : ¬ (0 < rb.length)
    · simp [h2] at h
    · rw [if_neg h2] at h
      rcases hm : makeArguments hd rb (eb.zip shapes) with e' | args <;>
        rw [hm] at h
      · simp at h
      · rcases hb : block <;> simp [hb] at h <;> tauto

/-- A concrete signature function used as a test double in witnesses. -/
def testSig : String → Nat → List Blob → Signature := fun _ _ _ => 5

/-- A concrete compiler used as a test double in witnesses. -/
def testCompile : List Blob → List Blob → List String → List String →
    List AliasEntry → CompilationResult :=
  fun _ _ _ _ _ => ⟨9, [nullShape], ⟨true, []⟩⟩

/-- A concrete executable run used as a test double in witnesses: it
returns the given result and leaves device memory unchanged. -/
def testRun (res : RunResult) : List ShapedBuf → Heap → RunResult × Heap :=
  fun _ h => (res, h)

/-- A concrete host-to-device shape translation used as a test double:
the identity. -/
def idShape : XShape → XShape := fun s => s

/-- Claim C1: on a cache miss (GetRecord returns no artifact for the
computed signature), BuildLocalExecutable compiles the subgraph, records
the artifact in the cache under that signature and re-fetches it, and for
every invocation the compile_result handed downstream is exactly the
value stored in the cache for that signature (the canonical copy). -/
theorem C1_cache_canonical_compile_result
    (cs : String → Nat → List Blob → Signature)
    (comp : List Blob → List Blob → List String → List String →
      List AliasEntry → CompilationResult)
    (name : String) (ord : Nat) (cache : Cache)
    (eb rb : List Blob) (en rn : List String) (al : List AliasEntry) :
    (getRecord cache (cs name ord eb) = none →
      (BuildLocalExecutable cs comp true name ord cache
          eb rb en rn al).events =
        [.cacheLookup false, .compile, .cacheRecord] ∧
      (BuildLocalExecutable cs comp true name ord cache
          eb rb en rn al).compile_result = some (comp eb rb en rn al)) ∧
    (BuildLocalExecutable cs comp true name ord cache
        eb rb en rn al).compile_result =
      getRecord (BuildLocalExecutable cs comp true name ord cache
        eb rb en rn al).cache (cs name ord eb) ∧
    (BuildLocalExecutable cs comp true name ord cache
        eb rb en rn al).error = none := by
  rw [BLE_characterization]
  rcases hg : getRecord cache (cs name ord eb) with _ | r <;>
    simp [hg, getRecord_record_self]

/-- Witness for C1 at a concrete cache-miss input. -/
theorem C1_cache_canonical_compile_result_witness :
    getRecord ([] : Cache) (testSig "op" 0 []) = none ∧
    ((BuildLocalExecutable testSig testCompile true "op" 0 []
        [] [] [] [] []).events =
      [.cacheLookup false, .compile, .cacheRecord] ∧
     (BuildLocalExecutable testSig testCompile true "op" 0 []
        [] [] [] [] []).compile_result =
      some (testCompile [] [] [] [] [])) :=
  ⟨rfl, (C1_cache_canonical_compile_result testSig testCompile "op" 0 []
    [] [] [] [] []).1 rfl⟩

/-- Claim C2: alias resolution processes entries in entry-list order; a
mutable entry at index i contributes exactly one AliasEntry whose input
slot is i and whose output slot continues the running count of return
tensors (starting from the count already present before the call),
appends its tensor to the return list and its declared output name to
the return-name list; a non-mutable entry contributes nothing. -/
theorem C2_alias_resolution_order
    (attr : LaunchAttrHelper) (eb : List Blob) (en : List String)
    (rb : List Blob) (rn : List String) (al : List AliasEntry)
    (h : eb.length = en.length) :
    AliasMutableInputsAndOutputs attr eb en rb rn al =
      some (rb ++ (specAliasExtras attr (eb.zip en).enum rb.length).1,
            rn ++ (specAliasExtras attr (eb.zip en).enum rb.length).2.1,
            al ++ (specAliasExtras attr (eb.zip en).enum rb.length).2.2) := by
  simp [AliasMutableInputsAndOutputs, h, aliasLoop_eq]

/-- Witness for C2 at the concrete input of the claim: entries [a,b,c]
with only b mutable (mapped to b_out) and two pre-existing outputs; the
extra return name list is exactly [b_out] and the single alias entry has
input slot 1 and output slot 2. -/
theorem C2_alias_resolution_order_witness :
    ([(⟨some 1, 4⟩ : Blob), ⟨some 2, 4⟩, ⟨some 3, 4⟩].length =
      (["a", "b", "c"] : List String).length) ∧
    AliasMutableInputsAndOutputs ⟨[("b", "b_out")]⟩
        [⟨some 1, 4⟩, ⟨some 2, 4⟩, ⟨some 3, 4⟩] ["a", "b", "c"]
        [⟨some 7, 8⟩, ⟨some 8, 8⟩] ["o0", "o1"] [] =
      some ([⟨some 7, 8⟩, ⟨some 8, 8⟩, ⟨some 2, 4⟩],
            ["o0", "o1", "b_out"],
            [⟨[2], 1, []⟩]) :=
  ⟨rfl,
   (C2_alias_resolution_order ⟨[("b", "b_out")]⟩
      [⟨some 1, 4⟩, ⟨some 2, 4⟩, ⟨some 3, 4⟩] ["a", "b", "c"]
      [⟨some 7, 8⟩, ⟨some 8, 8⟩] ["o0", "o1"] [] rfl).trans (by decide)⟩

/-- Claim C9: AliasMutableInputsAndOutputs is append-only with respect
to its return-blob, return-name and alias output parameters: whatever it
returns extends the lists passed in, so every element present before the
call is still present, unchanged and at the same index, afterwards; the
entry lists are inputs only and are not modified. -/
theorem C9_alias_append_only
    (attr : LaunchAttrHelper) (eb : List Blob) (en : List String)
    (rb : List Blob) (rn : List String) (al : List AliasEntry)
    (rb' : List Blob) (rn' : List String) (al' : List AliasEntry)
    (h : AliasMutableInputsAndOutputs attr eb en rb rn al =
      some (rb', rn', al')) :
    (∃ xb, rb' = rb ++ xb) ∧ (∃ xn, rn' = rn ++ xn) ∧
    (∃ xa, al' = al ++ xa) := by
  unfold AliasMutableInputsAndOutputs at h
  by_cases hl : eb.length = en.length
  · rw [if_pos hl, aliasLoop_eq] at h
    simp only [Option.some.injEq, Prod.mk.injEq] at h
    obtain ⟨h1, h2, h3⟩ := h
    exact ⟨⟨_, h1.symm⟩, ⟨_, h2.symm⟩, ⟨_, h3.symm⟩⟩
  · simp [hl] at h

/-- Witness for C9 at a concrete input with one mutable entry. -/
theorem C9_alias_append_only_witness :
    (AliasMutableInputsAndOutputs ⟨[("m", "m_out")]⟩
        [⟨some 4, 2⟩, ⟨some 5, 2⟩] ["k", "m"]
        [⟨some 9, 2⟩] ["o"] [] =
      some ([⟨some 9, 2⟩, ⟨some 5, 2⟩], ["o", "m_out"], [⟨[1], 1, []⟩])) ∧
    ((∃ xb, [(⟨some 9, 2⟩ : Blob), ⟨some 5, 2⟩] = [⟨some 9, 2⟩] ++ xb) ∧
     (∃ xn, ["o", "m_out"] = ["o"] ++ xn) ∧
     (∃ xa, [(⟨[1], 1, []⟩ : AliasEntry)] = [] ++ xa)) :=
  ⟨by decide,
   C9_alias_append_only ⟨[("m", "m_out")]⟩
     [⟨some 4, 2⟩, ⟨some 5, 2⟩] ["k", "m"]
     [⟨some 9, 2⟩] ["o"] [] _ _ _ (by decide)⟩

theorem makeArguments_tuple_error (hd : XShape → XShape) (rb : List Blob) :
    ∀ (pairs : List (Blob × XShape)),
      (∃ p ∈ pairs, (hd p.2).isTuple = true) →
      makeArguments hd rb pairs = .error .unsupportedInputShape
  | [], h => by simp at h
  | (blob, shape) :: rest, h => by
    unfold makeArguments
    by_cases ht : (hd shape).isTuple = true
    · rw [if_pos ht]
    · rw [if_neg ht]
      obtain ⟨p, hp, hpt⟩ := h
      rcases List.mem_cons.mp hp with hp | hp
      · subst hp
        exact absurd hpt ht
      · rw [makeArguments_tuple_error hd rb rest ⟨p, hp, hpt⟩]

theorem makeArguments_no_tuple_ok (hd : XShape → XShape) (rb : List Blob) :
    ∀ (pairs : List (Blob × XShape)),
      (∀ p ∈ pairs, (hd p.2).isTuple = false) →
      ∃ args, makeArguments hd rb pairs = .ok args
  | [], _ => ⟨[], rfl⟩
  | (blob, shape) :: rest, h => by
    unfold makeArguments
    have ht : ¬ (hd shape).isTuple = true := by
      simp [h (blob, shape) (List.mem_cons_self _ _)]
    rw [if_neg ht]
    obtain ⟨args, hargs⟩ := makeArguments_no_tuple_ok hd rb rest
      (fun p hp => h p (List.mem_cons_of_mem _ hp))
    rw [hargs]
    exact ⟨_, rfl⟩

theorem LE_events_shape (hd : XShape → XShape)
    (runA : List ShapedBuf → Heap → RunResult × Heap)
    (eb : List Blob) (shapes : List XShape) (rb : List Blob)
    (os : XShape) (block : Bool) (h0 : Heap) :
    (LaunchExecutable hd runA eb shapes rb os block h0).events = [] ∨
    (LaunchExecutable hd runA eb shapes rb os block h0).events =
      Event.run :: (if block then [Event.blockHost] else []) := by
  rw [LE_characterization]
  by_cases h1 : eb.length ≠ shapes.length
  · rw [if_pos h1]; exact Or.inl rfl
  · rw [if_neg h1]
    by_cases h2 : ¬ (0 < rb.length)
    · rw [if_pos h2]; exact Or.inl rfl
    · rw [if_neg h2]
      rcases hm : makeArguments hd rb (eb.zip shapes) with e | args
      · exact Or.inl rfl
      · exact Or.inr rfl

theorem LE_ok (hd : XShape → XShape)
    (runA : List ShapedBuf → Heap → RunResult × Heap)
    (eb : List Blob) (shapes : List XShape) (rb : List Blob)
    (os : XShape) (block : Bool) (h0 : Heap) (args : List ShapedBuf)
    (hlen : eb.length = shapes.length) (hrb : 0 < rb.length)
    (hargs : makeArguments hd rb (eb.zip shapes) = .ok args) :
    LaunchExecutable hd runA eb shapes rb os block h0 =
      ⟨Event.run :: (if block then [Event.blockHost] else []),
       (runA args h0).2, checkResults (runA args h0).1 rb⟩ := by
  rw [LE_characterization, if_neg (by simp [hlen]),
    if_neg (by simp [hrb]), hargs]

/-- Claim C3: after invoking the executable, LaunchExecutable fails
fatally unless the result shape is a tuple; and for every return slot
with a non-null result buffer whose pointer differs from the output
blob pointer at that slot, execution fails fatally with a buffer
mismatch. -/
theorem C3_result_postcondition
    (hd : XShape → XShape)
    (runA : List ShapedBuf → Heap → RunResult × Heap)
    (eb : List Blob) (shapes : List XShape) (rb : List Blob)
    (os : XShape) (block : Bool) (h0 : Heap)
    (args : List ShapedBuf) (r : RunResult) (h1 : Heap)
    (hlen : eb.length = shapes.length) (hrb : 0 < rb.length)
    (hargs : makeArguments hd rb (eb.zip shapes) = .ok args)
    (hrun : runA args h0 = (r, h1)) :
    (r.onHostShapeIsTuple = false →
      (LaunchExecutable hd runA eb shapes rb os block h0).error =
        some .resultNotTuple) ∧
    (r.onHostShapeIsTuple = true →
      ∀ k p, k < rb.length → r.buffers.getD k none = some p →
        some p ≠ (rb.getD k nullBlob).dptr →
        ∃ j, (LaunchExecutable hd runA eb shapes rb os block h0).error =
          some (.bufferMismatch j)) := by
  rw [LE_ok hd runA eb shapes rb os block h0 args hlen hrb hargs, hrun]
  constructor
  · intro ht
    simp [checkResults, ht]
  · intro ht k p hk hbuf hne
    simp only [checkResults, ht, if_true]
    exact checkLoop_mismatch r.buffers rb 0 k p hk
      (by simpa [Nat.zero_add] using hbuf) hne

/-- Witness for C3 at a concrete input whose single result buffer
pointer (6) differs from the output blob pointer (5). -/
theorem C3_result_postcondition_witness :
    ([(⟨some 1, 4⟩ : Blob)].length = [nullShape].length) ∧
    (0 < [(⟨some 5, 4⟩ : Blob)].length) ∧
    (makeArguments idShape [⟨some 5, 4⟩]
        ([(⟨some 1, 4⟩ : Blob)].zip [nullShape]) =
      .ok [⟨nullShape, nullShape, some 1, 4⟩]) ∧
    (RunResult.onHostShapeIsTuple ⟨true, [some 6]⟩ = true) ∧
    ((⟨true, [some 6]⟩ : RunResult).buffers.getD 0 none = some 6) ∧
    (some 6 ≠ ([(⟨some 5, 4⟩ : Blob)].getD 0 nullBlob).dptr) ∧
    (∃ j, (LaunchExecutable idShape (testRun ⟨true, [some 6]⟩)
        [⟨some 1, 4⟩] [nullShape] [⟨some 5, 4⟩] nullShape true []).error =
      some (.bufferMismatch j)) :=
  ⟨rfl, by decide, rfl, rfl, rfl, by decide,
   (C3_result_postcondition idShape (testRun ⟨true, [some 6]⟩)
      [⟨some 1, 4⟩] [nullShape] [⟨some 5, 4⟩] nullShape true []
      [⟨nullShape, nullShape, some 1, 4⟩] ⟨true, [some 6]⟩ []
      rfl (by decide) rfl rfl).2 rfl 0 6 (by decide) rfl (by decide)⟩

/-- Claim C5: in the entry-buffer translation of LaunchExecutable, an
entry whose data pointer is null but whose declared byte size is
positive receives the data pointer of the first return blob; every
other entry keeps its own data pointer. -/
theorem C5_placeholder_pointer (hd : XShape → XShape) (rb : List Blob) :
    ∀ (pairs : List (Blob × XShape)) (args : List ShapedBuf),
      makeArguments hd rb pairs = .ok args →
      args.length = pairs.length ∧
      ∀ i, i < pairs.length →
        (args.getD i nullBuf).ptr =
          (if (pairs.getD i nullPair).1.byteSize > 0 ∧
              (pairs.getD i nullPair).1.dptr = none
           then (rb.headD nullBlob).dptr
           else (pairs.getD i nullPair).1.dptr)
  | [], args, h => by
    simp only [makeArguments, Except.ok.injEq] at h
    subst h
    exact ⟨rfl, fun i hi => by simp at hi⟩
  | (blob, shape) :: rest, args, h => by
    unfold makeArguments at h
    by_cases ht : (hd shape).isTuple = true
    · rw [if_pos ht] at h; cases h
    · rw [if_neg ht] at h
      rcases hr : makeArguments hd rb rest with e | bufs <;> rw [hr] at h
      · cases h
      · simp only [Except.ok.injEq] at h
        obtain ⟨hlen, hidx⟩ := C5_placeholder_pointer hd rb rest bufs hr
        subst h
        refine ⟨by simp [hlen], fun i hi => ?_⟩
        rcases i with _ | i
        · by_cases hc : blob.byteSize > 0 ∧ blob.dptr = none <;>
            simp [hc, nullPair]
        · exact hidx i (by simpa using hi)

/-- Witness for C5 at a concrete input with one body-disabled entry
(null pointer, byte size 4) and one ordinary entry. -/
theorem C5_placeholder_pointer_witness :
    (makeArguments idShape [⟨some 20, 8⟩]
        [(⟨none, 4⟩, nullShape), (⟨some 2, 4⟩, nullShape)] =
      .ok [⟨nullShape, nullShape, some 20, 4⟩,
           ⟨nullShape, nullShape, some 2, 4⟩]) ∧
    (([⟨nullShape, nullShape, some 20, 4⟩,
       ⟨nullShape, nullShape, some 2, 4⟩] : List ShapedBuf).getD 0
        nullBuf).ptr = some 20 ∧
    (([⟨nullShape, nullShape, some 20, 4⟩,
       ⟨nullShape, nullShape, some 2, 4⟩] : List ShapedBuf).getD 1
        nullBuf).ptr = some 2 :=
  ⟨rfl,
   ((C5_placeholder_pointer idShape [⟨some 20, 8⟩]
      [(⟨none, 4⟩, nullShape), (⟨some 2, 4⟩, nullShape)]
      [⟨nullShape, nullShape, some 20, 4⟩, ⟨nullShape, nullShape, some 2, 4⟩]
      rfl).2 0 (by decide)).trans (by decide),
   ((C5_placeholder_pointer idShape [⟨some 20, 8⟩]
      [(⟨none, 4⟩, nullShape), (⟨some 2, 4⟩, nullShape)]
      [⟨nullShape, nullShape, some 20, 4⟩, ⟨nullShape, nullShape, some 2, 4⟩]
      rfl).2 1 (by decide)).trans (by decide)⟩

/-- Claim C7: an entry tensor whose device-side shape is a tuple makes
LaunchExecutable fail fatally with UnsupportedInputShape before the run;
when every entry device shape is flat, that rejection never happens. -/
theorem C7_tuple_input_rejected
    (hd : XShape → XShape)
    (runA : List ShapedBuf → Heap → RunResult × Heap)
    (eb : List Blob) (shapes : List XShape) (rb : List Blob)
    (os : XShape) (block : Bool) (h0 : Heap)
    (hlen : eb.length = shapes.length) (hrb : 0 < rb.length) :
    ((∃ p ∈ eb.zip shapes, (hd p.2).isTuple = true) →
      (LaunchExecutable hd runA eb shapes rb os block h0).error =
        some .unsupportedInputShape ∧
      Event.run ∉ (LaunchExecutable hd runA eb shapes rb os block h0).events) ∧
    ((∀ p ∈ eb.zip shapes, (hd p.2).isTuple = false) →
      (LaunchExecutable hd runA eb shapes rb os block h0).error ≠
        some .unsupportedInputShape) := by
  constructor
  · intro hex
    have hm := makeArguments_tuple_error hd rb (eb.zip shapes) hex
    rw [LE_characterization, if_neg (by simp [hlen]),
      if_neg (by simp [hrb]), hm]
    exact ⟨rfl, by simp⟩
  · intro hall
    obtain ⟨args, hargs⟩ := makeArguments_no_tuple_ok hd rb (eb.zip shapes) hall
    rw [LE_ok hd runA eb shapes rb os block h0 args hlen hrb hargs]
    rcases checkResults_cases (runA args h0).1 rb with h | h | ⟨j, h⟩ <;>
      simp [h]

/-- Witness for C7 at a concrete input whose single entry has a tuple
device shape. -/
theorem C7_tuple_input_rejected_witness :
    ([(⟨some 1, 4⟩ : Blob)].length = [(⟨true, []⟩ : XShape)].length) ∧
    (0 < [(⟨some 2, 4⟩ : Blob)].length) ∧
    ((idShape ⟨true, []⟩).isTuple = true) ∧
    (((⟨some 1, 4⟩ : Blob), (⟨true, []⟩ : XShape)) ∈
      [(⟨some 1, 4⟩ : Blob)].zip [(⟨true, []⟩ : XShape)]) ∧
    ((LaunchExecutable idShape (testRun ⟨true, [none]⟩)
        [⟨some 1, 4⟩] [⟨true, []⟩] [⟨some 2, 4⟩] nullShape true []).error =
      some .unsupportedInputShape ∧
     Event.run ∉ (LaunchExecutable idShape (testRun ⟨true, [none]⟩)
        [⟨some 1, 4⟩] [⟨true, []⟩] [⟨some 2, 4⟩] nullShape true []).events) :=
  ⟨rfl, by decide, rfl, by decide,
   (C7_tuple_input_rejected idShape (testRun ⟨true, [none]⟩)
      [⟨some 1, 4⟩] [⟨true, []⟩] [⟨some 2, 4⟩] nullShape true []
      rfl (by decide)).1
     ⟨((⟨some 1, 4⟩ : Blob), (⟨true, []⟩ : XShape)), by decide, rfl⟩⟩

/-- Claim C10: the result-translation loop of LaunchExecutable never
writes into the output tensors: device memory afterwards is exactly
what the executable run produced; a null result buffer at a slot is
skipped silently, so all-null results yield no error; and any error it
raises is only the tuple check or a pointer-identity mismatch. -/
theorem C10_no_result_copy
    (hd : XShape → XShape)
    (runA : List ShapedBuf → Heap → RunResult × Heap)
    (eb : List Blob) (shapes : List XShape) (rb : List Blob)
    (os : XShape) (block : Bool) (h0 : Heap)
    (args : List ShapedBuf) (r : RunResult) (h1 : Heap)
    (hlen : eb.length = shapes.length) (hrb : 0 < rb.length)
    (hargs : makeArguments hd rb (eb.zip shapes) = .ok args)
    (hrun : runA args h0 = (r, h1)) :
    (LaunchExecutable hd runA eb shapes rb os block h0).heap = h1 ∧
    (r.onHostShapeIsTuple = true →
      (∀ k, k < rb.length → r.buffers.getD k none = none) →
      (LaunchExecutable hd runA eb shapes rb os block h0).error = none) ∧
    ((LaunchExecutable hd runA eb shapes rb os block h0).error = none ∨
     (LaunchExecutable hd runA eb shapes rb os block h0).error =
       some .resultNotTuple ∨
     ∃ j, (LaunchExecutable hd runA eb shapes rb os block h0).error =
       some (.bufferMismatch j)) := by
  rw [LE_ok hd runA eb shapes rb os block h0 args hlen hrb hargs, hrun]
  refine ⟨rfl, ?_, ?_⟩
  · intro ht hnone
    simp only [checkResults, ht, if_true]
    exact checkLoop_all_none r.buffers rb 0
      (fun k hk => by simpa [Nat.zero_add] using hnone k hk)
  · exact checkResults_cases r rb

/-- Witness for C10 at a concrete input whose run produces a tuple
result with one null buffer: memory is untouched and no error is
raised. -/
theorem C10_no_result_copy_witness :
    ([(⟨some 1, 4⟩ : Blob)].length = [nullShape].length) ∧
    (0 < [(⟨some 2, 4⟩ : Blob)].length) ∧
    (makeArguments idShape [⟨some 2, 4⟩]
        ([(⟨some 1, 4⟩ : Blob)].zip [nullShape]) =
      .ok [⟨nullShape, nullShape, some 1, 4⟩]) ∧
    ((⟨true, [none]⟩ : RunResult).buffers.getD 0 none = none) ∧
    ((LaunchExecutable idShape (testRun ⟨true, [none]⟩)
        [⟨some 1, 4⟩] [nullShape] [⟨some 2, 4⟩] nullShape false
        [(3, 4)]).heap = [(3, 4)] ∧
     (LaunchExecutable idShape (testRun ⟨true, [none]⟩)
        [⟨some 1, 4⟩] [nullShape] [⟨some 2, 4⟩] nullShape false
        [(3, 4)]).error = none) :=
  ⟨rfl, by decide, rfl, rfl,
   (C10_no_result_copy idShape (testRun ⟨true, [none]⟩)
      [⟨some 1, 4⟩] [nullShape] [⟨some 2, 4⟩] nullShape false [(3, 4)]
      [⟨nullShape, nullShape, some 1, 4⟩] ⟨true, [none]⟩ [(3, 4)]
      rfl (by decide) rfl rfl).1,
   (C10_no_result_copy idShape (testRun ⟨true, [none]⟩)
      [⟨some 1, 4⟩] [nullShape] [⟨some 2, 4⟩] nullShape false [(3, 4)]
      [⟨nullShape, nullShape, some 1, 4⟩] ⟨true, [none]⟩ [(3, 4)]
      rfl (by decide) rfl rfl).2.1 rfl (by decide)⟩

theorem AMIO_in_FD (attr : LaunchAttrHelper) (bb : String → Blob)
    (bn : String → String) (ibns obns : List String) :
    ∃ rb' rn' al',
      AliasMutableInputsAndOutputs attr (ibns.map bb) (ibns.map bn)
        (obns.map bb) obns [] = some (rb', rn', al') := by
  unfold AliasMutableInputsAndOutputs
  rw [if_pos (by simp)]
  exact ⟨_, _, _, rfl⟩

theorem BLE_ok (cs : String → Nat → List Blob → Signature)
    (comp : List Blob → List Blob → List String → List String →
      List AliasEntry → CompilationResult)
    (op : String) (ord : Nat) (cache : Cache)
    (eb rb : List Blob) (en rn : List String) (al : List AliasEntry) :
    ∃ cache' cres tailEv,
      BuildLocalExecutable cs comp true op ord cache eb rb en rn al =
        ⟨cache', some cres,
         Event.cacheLookup (getRecord cache (cs op ord eb)).isSome :: tailEv,
         none⟩ ∧
      (Event.compile ∈ tailEv ↔ getRecord cache (cs op ord eb) = none) ∧
      (∀ e ∈ tailEv, e = Event.compile ∨ e = Event.cacheRecord) := by
  rcases hg : getRecord cache (cs op ord eb) with _ | r <;>
    rw [BLE_characterization, hg]
  · exact ⟨_, _, [.compile, .cacheRecord], rfl, by simp, by simp⟩
  · exact ⟨_, _, [], rfl, by simp, by simp⟩

theorem FD_reduced (dt : DeviceType) (attr : LaunchAttrHelper)
    (bb : String → Blob) (bn : String → String)
    (ibns obns : List String)
    (cs : String → Nat → List Blob → Signature)
    (comp : List Blob → List Blob → List String → List String →
      List AliasEntry → CompilationResult)
    (rai : Nat → List Int) (hd : XShape → XShape)
    (runA : List ShapedBuf → Heap → RunResult × Heap)
    (op : String) (ord : Nat) (cache : Cache) (heap : Heap)
    (rb' : List Blob) (rn' : List String) (al' : List AliasEntry)
    (cache' : Cache) (cres : CompilationResult) (bev : List Event)
    (hA : AliasMutableInputsAndOutputs attr (ibns.map bb) (ibns.map bn)
      (obns.map bb) obns [] = some (rb', rn', al'))
    (hB : BuildLocalExecutable cs comp true op ord cache (ibns.map bb)
      rb' (ibns.map bn) rn' al' = ⟨cache', some cres, bev, none⟩) :
    ForwardDataContent dt true attr bb bn ibns obns cs comp rai hd runA
        op ord cache heap =
      if rb'.length ≠ (rai cres.executable).length then
        ⟨cache', .aliasResolve :: bev, heap, some .allocMismatch⟩
      else
        ⟨cache',
         .aliasResolve :: bev ++ [.populateResults] ++
           (LaunchExecutable hd runA (ibns.map bb) cres.xla_input_shapes
             rb' cres.xla_output_shape
             (match dt with | .kGPU => false | _ => true) heap).events,
         (LaunchExecutable hd runA (ibns.map bb) cres.xla_input_shapes
           rb' cres.xla_output_shape
           (match dt with | .kGPU => false | _ => true) heap).heap,
         (LaunchExecutable hd runA (ibns.map bb) cres.xla_input_shapes
           rb' cres.xla_output_shape
           (match dt with | .kGPU => false | _ => true) heap).error⟩ := by
  by_cases hc : rb'.length ≠ (rai cres.executable).length
  · simp [ForwardDataContent, hA, hB, hc]
  · simp [ForwardDataContent, hA, hB, hc]

/-- Claim C4: the blocking policy is selected purely by device class:
on a GPU device the launch never waits on the stream, and on a CPU
device every invocation that reaches the executable run also waits on
the stream before returning. -/
theorem C4_blocking_policy (dt : DeviceType) (conf : Bool)
    (attr : LaunchAttrHelper) (bb : String → Blob) (bn : String → String)
    (ibns obns : List String)
    (cs : String → Nat → List Blob → Signature)
    (comp : List Blob → List Blob → List String → List String →
      List AliasEntry → CompilationResult)
    (rai : Nat → List Int) (hd : XShape → XShape)
    (runA : List ShapedBuf → Heap → RunResult × Heap)
    (op : String) (ord : Nat) (cache : Cache) (heap : Heap) :
    (dt = .kGPU →
      Event.blockHost ∉ (ForwardDataContent dt conf attr bb bn ibns obns
        cs comp rai hd runA op ord cache heap).events) ∧
    (dt = .kCPU →
      Event.run ∈ (ForwardDataContent dt conf attr bb bn ibns obns
        cs comp rai hd runA op ord cache heap).events →
      Event.blockHost ∈ (ForwardDataContent dt conf attr bb bn ibns obns
        cs comp rai hd runA op ord cache heap).events) := by
  cases conf with
  | false => simp [ForwardDataContent]
  | true =>
    obtain ⟨rb', rn', al', hA⟩ := AMIO_in_FD attr bb bn ibns obns
    obtain ⟨cache', cres, tailEv, hB, hcomp, htail⟩ :=
      BLE_ok cs comp op ord cache (ibns.map bb) rb' (ibns.map bn) rn' al'
    rw [FD_reduced dt attr bb bn ibns obns cs comp rai hd runA op ord
      cache heap rb' rn' al' cache' cres _ hA hB]
    have hnoB : Event.blockHost ∉ tailEv := fun h => by
      rcases htail _ h with h' | h' <;> cases h'
    have hnoR : Event.run ∉ tailEv := fun h => by
      rcases htail _ h with h' | h' <;> cases h'
    by_cases hc : rb'.length ≠ (rai cres.executable).length
    · rw [if_pos hc]
      constructor
      · intro _ hmem
        simp [hnoB] at hmem
      · intro _ hmem
        exfalso
        simp [hnoR] at hmem
    · rw [if_neg hc]
      cases dt with
      | kGPU =>
        refine ⟨fun _ hmem => ?_, fun h => (by cases h)⟩
        rcases LE_events_shape hd runA (ibns.map bb) cres.xla_input_shapes
          rb' cres.xla_output_shape false heap with hle | hle <;>
          simp [hle, hnoB] at hmem
      | kCPU =>
        refine ⟨fun h => (by cases h), fun _ hmem => ?_⟩
        rcases LE_events_shape hd runA (ibns.map bb) cres.xla_input_shapes
          rb' cres.xla_output_shape true heap with hle | hle
        · exfalso
          simp [hle, hnoR] at hmem
        · simp [hle]

theorem LE_error_ne_alloc (hd : XShape → XShape)
    (runA : List ShapedBuf → Heap → RunResult × Heap)
    (eb : List Blob) (shapes : List XShape) (rb : List Blob)
    (os : XShape) (block : Bool) (h0 : Heap) :
    (LaunchExecutable hd runA eb shapes rb os block h0).error ≠
      some .allocMismatch := by
  rw [LE_characterization]
  by_cases h1 : eb.length ≠ shapes.length
  · rw [if_pos h1]; simp
  · rw [if_neg h1]
    by_cases h2 : ¬ (0 < rb.length)
    · rw [if_pos h2]; simp
    · rw [if_neg h2]
      rcases hm : makeArguments hd rb (eb.zip shapes) with e | args
      · have he := makeArguments_error hd rb (eb.zip shapes) e hm
        subst he; simp
      · rcases checkResults_cases (runA args h0).1 rb with h | h | ⟨j, h⟩ <;>
          simp [h]

theorem LE_error_mem (hd : XShape → XShape)
    (runA : List ShapedBuf → Heap → RunResult × Heap)
    (eb : List Blob) (shapes : List XShape) (rb : List Blob)
    (os : XShape) (block : Bool) (h0 : Heap)
    (hlen : eb.length = shapes.length) (hrb : 0 < rb.length) :
    (LaunchExecutable hd runA eb shapes rb os block h0).error = none ∨
    (LaunchExecutable hd runA eb shapes rb os block h0).error =
      some .unsupportedInputShape ∨
    (LaunchExecutable hd runA eb shapes rb os block h0).error =
      some .resultNotTuple ∨
    ∃ j, (LaunchExecutable hd runA eb shapes rb os block h0).error =
      some (.bufferMismatch j) := by
  rw [LE_characterization, if_neg (by simp [hlen]), if_neg (by simp [hrb])]
  rcases hm : makeArguments hd rb (eb.zip shapes) with e | args
  · have he := makeArguments_error hd rb (eb.zip shapes) e hm
    subst he
    exact Or.inr (Or.inl rfl)
  · rcases checkResults_cases (runA args h0).1 rb with h | h | ⟨j, h⟩
    · exact Or.inl h
    · exact Or.inr (Or.inr (Or.inl h))
    · exact Or.inr (Or.inr (Or.inr ⟨j, h⟩))

/-- A concrete compiled artifact used as a test double in witnesses. -/
def testArtifact : CompilationResult := ⟨0, [nullShape], ⟨true, []⟩⟩

/-- A concrete one-entry cache holding testArtifact under signature 0,
used as a test double in witnesses. -/
def testCache : Cache := [(0, testArtifact)]

/-- A concrete signature function hashing everything to 0, used as a
test double in witnesses. -/
def constSig : String → Nat → List Blob → Signature := fun _ _ _ => 0

/-- A concrete compiler returning testArtifact, used as a test double
in witnesses. -/
def constComp : List Blob → List Blob → List String → List String →
    List AliasEntry → CompilationResult := fun _ _ _ _ _ => testArtifact

/-- A concrete blob map used as a test double in witnesses. -/
def oneBlob : String → Blob := fun _ => ⟨some 1, 4⟩

/-- A concrete blob-name map used as a test double in witnesses. -/
def idName : String → String := fun s => s

/-- A concrete allocation-index map with exactly one index, used as a
test double in witnesses. -/
def oneAlloc : Nat → List Int := fun _ => [0]

/-- A concrete allocation-index map with no indices, used as a test
double in witnesses. -/
def emptyAlloc : Nat → List Int := fun _ => []

/-- Witness for C4 at concrete GPU and CPU invocations that reach the
executable run. -/
theorem C4_blocking_policy_witness :
    Event.blockHost ∉ (ForwardDataContent .kGPU true ⟨[]⟩ oneBlob idName
      ["x"] ["y"] constSig constComp oneAlloc idShape
      (testRun ⟨true, [none]⟩) "op" 0 testCache []).events ∧
    Event.run ∈ (ForwardDataContent .kCPU true ⟨[]⟩ oneBlob idName
      ["x"] ["y"] constSig constComp oneAlloc idShape
      (testRun ⟨true, [none]⟩) "op" 0 testCache []).events ∧
    Event.blockHost ∈ (ForwardDataContent .kCPU true ⟨[]⟩ oneBlob idName
      ["x"] ["y"] constSig constComp oneAlloc idShape
      (testRun ⟨true, [none]⟩) "op" 0 testCache []).events :=
  ⟨(C4_blocking_policy .kGPU true ⟨[]⟩ oneBlob idName ["x"] ["y"]
      constSig constComp oneAlloc idShape (testRun ⟨true, [none]⟩)
      "op" 0 testCache []).1 rfl,
   by decide,
   (C4_blocking_policy .kCPU true ⟨[]⟩ oneBlob idName ["x"] ["y"]
      constSig constComp oneAlloc idShape (testRun ⟨true, [none]⟩)
      "op" 0 testCache []).2 rfl (by decide)⟩

/-- Claim C6: the invocation fails fatally before the executable run
whenever the entry count differs from the artifact input-shape count,
whenever there is no return tensor, and whenever the allocation-index
count differs from the return-tensor count; under the negations of
these conditions those fatal branches are unreachable. -/
theorem C6_size_check_fatal
    (hd : XShape → XShape)
    (runA : List ShapedBuf → Heap → RunResult × Heap)
    (eb : List Blob) (shapes : List XShape) (rb : List Blob)
    (os : XShape) (block : Bool) (h0 : Heap)
    (dt : DeviceType) (attr : LaunchAttrHelper)
    (bb : String → Blob) (bn : String → String)
    (ibns obns : List String)
    (cs : String → Nat → List Blob → Signature)
    (comp : List Blob → List Blob → List String → List String →
      List AliasEntry → CompilationResult)
    (rai : Nat → List Int) (op : String) (ord : Nat)
    (cache : Cache) (heap : Heap)
    (rb' : List Blob) (rn' : List String) (al' : List AliasEntry)
    (hA : AliasMutableInputsAndOutputs attr (ibns.map bb) (ibns.map bn)
      (obns.map bb) obns [] = some (rb', rn', al')) :
    (eb.length ≠ shapes.length →
      (LaunchExecutable hd runA eb shapes rb os block h0).error =
        some .shapeMismatch ∧
      Event.run ∉ (LaunchExecutable hd runA eb shapes rb os block h0).events) ∧
    (eb.length = shapes.length → rb.length = 0 →
      (LaunchExecutable hd runA eb shapes rb os block h0).error =
        some .missingOutput ∧
      Event.run ∉ (LaunchExecutable hd runA eb shapes rb os block h0).events) ∧
    (eb.length = shapes.length → 0 < rb.length →
      (LaunchExecutable hd runA eb shapes rb os block h0).error ≠
        some .shapeMismatch ∧
      (LaunchExecutable hd runA eb shapes rb os block h0).error ≠
        some .missingOutput) ∧
    ((∀ e, (rai e).length ≠ rb'.length) →
      (ForwardDataContent dt true attr bb bn ibns obns cs comp rai hd
        runA op ord cache heap).error = some .allocMismatch ∧
      Event.run ∉ (ForwardDataContent dt true attr bb bn ibns obns cs
        comp rai hd runA op ord cache heap).events) ∧
    ((∀ e, (rai e).length = rb'.length) →
      (ForwardDataContent dt true attr bb bn ibns obns cs comp rai hd
        runA op ord cache heap).error ≠ some .allocMismatch) := by
  obtain ⟨cache', cres, tailEv, hB, hcomp, htail⟩ :=
    BLE_ok cs comp op ord cache (ibns.map bb) rb' (ibns.map bn) rn' al'
  have hnoR : Event.run ∉ tailEv := fun h => by
    rcases htail _ h with h' | h' <;> cases h'
  refine ⟨?_, ?_, ?_, ?_, ?_⟩
  · intro h
    rw [LE_characterization, if_pos h]
    exact ⟨rfl, by simp⟩
  · intro h1 h2
    rw [LE_characterization, if_neg (by simp [h1]), if_pos (by simp [h2])]
    exact ⟨rfl, by simp⟩
  · intro h1 h2
    rcases LE_error_mem hd runA eb shapes rb os block h0 h1 h2 with
      h | h | h | ⟨j, h⟩ <;> simp [h]
  · intro hal
    rw [FD_reduced dt attr bb bn ibns obns cs comp rai hd runA op ord
      cache heap rb' rn' al' cache' cres _ hA hB,
      if_pos (fun hx => hal cres.executable hx.symm)]
    exact ⟨rfl, by simp [hnoR]⟩
  · intro hal
    rw [FD_reduced dt attr bb bn ibns obns cs comp rai hd runA op ord
      cache heap rb' rn' al' cache' cres _ hA hB,
      if_neg (by simp [hal cres.executable])]
    exact LE_error_ne_alloc hd runA (ibns.map bb) cres.xla_input_shapes
      rb' cres.xla_output_shape _ heap

/-- Witness for C6 at concrete inputs: an entry-count mismatch, an
empty return list, and an allocation-index count mismatch. -/
theorem C6_size_check_fatal_witness :
    (([] : List Blob).length ≠ [nullShape].length) ∧
    ((LaunchExecutable idShape (testRun ⟨true, [none]⟩) [] [nullShape]
        [⟨some 2, 4⟩] nullShape true []).error = some .shapeMismatch ∧
     Event.run ∉ (LaunchExecutable idShape (testRun ⟨true, [none]⟩) []
        [nullShape] [⟨some 2, 4⟩] nullShape true []).events) ∧
    ((emptyAlloc 0).length ≠ [oneBlob "y"].length) ∧
    ((ForwardDataContent .kCPU true ⟨[]⟩ oneBlob idName ["x"] ["y"]
        constSig constComp emptyAlloc idShape (testRun ⟨true, [none]⟩)
        "op" 0 testCache []).error = some .allocMismatch ∧
     Event.run ∉ (ForwardDataContent .kCPU true ⟨[]⟩ oneBlob idName
        ["x"] ["y"] constSig constComp emptyAlloc idShape
        (testRun ⟨true, [none]⟩) "op" 0 testCache []).events) :=
  ⟨by decide,
   (C6_size_check_fatal idShape (testRun ⟨true, [none]⟩) [] [nullShape]
      [⟨some 2, 4⟩] nullShape true [] .kCPU ⟨[]⟩ oneBlob idName
      ["x"] ["y"] constSig constComp emptyAlloc "op" 0 testCache []
      [oneBlob "y"] ["y"] [] (by decide)).1 (by decide),
   by decide,
   (C6_size_check_fatal idShape (testRun ⟨true, [none]⟩) [] [nullShape]
      [⟨some 2, 4⟩] nullShape true [] .kCPU ⟨[]⟩ oneBlob idName
      ["x"] ["y"] constSig constComp emptyAlloc "op" 0 testCache []
      [oneBlob "y"] ["y"] [] (by decide)).2.2.2.1
     (fun e => by simp [emptyAlloc, oneBlob])⟩

/-- Counterexample to claim C8 as stated: at a concrete invocation
whose signature is already in the cache (the trace records a cache
hit), alias resolution is still performed, and it happens before the
cache is consulted, contradicting that on a cache hit alias resolution
is not performed and that the cache is consulted first. -/
theorem C8_counterexample_alias_on_hit :
    (ForwardDataContent .kCPU true ⟨[]⟩ oneBlob idName ["x"] ["y"]
      constSig constComp oneAlloc idShape (testRun ⟨true, [none]⟩)
      "op" 0 testCache []).events =
      [.aliasResolve, .cacheLookup true, .populateResults, .run,
       .blockHost] ∧
    Event.aliasResolve ∈ (ForwardDataContent .kCPU true ⟨[]⟩ oneBlob
      idName ["x"] ["y"] constSig constComp oneAlloc idShape
      (testRun ⟨true, [none]⟩) "op" 0 testCache []).events ∧
    Event.cacheLookup true ∈ (ForwardDataContent .kCPU true ⟨[]⟩ oneBlob
      idName ["x"] ["y"] constSig constComp oneAlloc idShape
      (testRun ⟨true, [none]⟩) "op" 0 testCache []).events := by
  refine ⟨by decide, by decide, by decide⟩

/-- Claim C8 as amended: in every invocation (with the launch conf
present), alias resolution is performed first, unconditionally on hit
and miss alike, before the cache is consulted; the GraphCompiler is
invoked only on a cache miss, after the cache lookup. -/
theorem C8_amended_alias_unconditional (dt : DeviceType)
    (attr : LaunchAttrHelper) (bb : String → Blob) (bn : String → String)
    (ibns obns : List String)
    (cs : String → Nat → List Blob → Signature)
    (comp : List Blob → List Blob → List String → List String →
      List AliasEntry → CompilationResult)
    (rai : Nat → List Int) (hd : XShape → XShape)
    (runA : List ShapedBuf → Heap → RunResult × Heap)
    (op : String) (ord : Nat) (cache : Cache) (heap : Heap) :
    ∃ rest,
      (ForwardDataContent dt true attr bb bn ibns obns cs comp rai hd
        runA op ord cache heap).events =
        Event.aliasResolve ::
        Event.cacheLookup
          (getRecord cache (cs op ord (ibns.map bb))).isSome :: rest ∧
      (Event.compile ∈ (ForwardDataContent dt true attr bb bn ibns obns
        cs comp rai hd runA op ord cache heap).events ↔
        getRecord cache (cs op ord (ibns.map bb)) = none) := by
  obtain ⟨rb', rn', al', hA⟩ := AMIO_in_FD attr bb bn ibns obns
  obtain ⟨cache', cres, tailEv, hB, hcomp, htail⟩ :=
    BLE_ok cs comp op ord cache (ibns.map bb) rb' (ibns.map bn) rn' al'
  rw [FD_reduced dt attr bb bn ibns obns cs comp rai hd runA op ord
    cache heap rb' rn' al' cache' cres _ hA hB]
  by_cases hc : rb'.length ≠ (rai cres.executable).length
  · rw [if_pos hc]
    exact ⟨tailEv, rfl, by simpa using hcomp⟩
  · rw [if_neg hc]
    generalize (match dt with
      | DeviceType.kGPU => false
      | _ => true) = blk
    have hnoC : Event.compile ∉ (LaunchExecutable hd runA (ibns.map bb)
        cres.xla_input_shapes rb' cres.xla_output_shape blk
        heap).events := by
      intro h
      rcases LE_events_shape hd runA (ibns.map bb) cres.xla_input_shapes
        rb' cres.xla_output_shape blk heap with hle | hle <;>
        rw [hle] at h
      · simp at h
      · rcases blk <;> simp at h
    refine ⟨tailEv ++ [Event.populateResults] ++ (LaunchExecutable hd
      runA (ibns.map bb) cres.xla_input_shapes rb' cres.xla_output_shape
      blk heap).events, by simp, ?_⟩
    simpa [hnoC] using hcomp

end OfXla
